import Mathlib

/-!
Verification of the reference-resolution core of `referencesrv`
(`resolver/solve.py`, `resolver/hypotheses.py`, `resolver/specialrules.py`)
against its natural-language specification.

Shallow embedding conventions:
* Python dicts of string fields are embedded as total functions
  `String → String`, where the empty string stands for an absent key
  (Python truthiness: keys are only ever set to truthy values).
* Python floats are embedded generically: scores live in an arbitrary
  linearly ordered commutative ring, instantiated at `ℤ` in witnesses.
* Python exceptions used for control flow (`Undecidable`, `NoSolution`)
  are embedded as an explicit `Outcome` datatype.
* External collaborators that are not part of this repository
  (author normalization, bibstem lookup, regex engine oracles, …) are
  passed in as explicit function parameters (`Ext`).
-/

namespace RefSrv

/-- A Python string-keyed dict of strings; `""` encodes an absent key. -/
def Map : Type := String → String

/-- The empty dict. -/
def Map.empty : Map := fun _ => ""

instance : CoeFun Map (fun _ => String → String) := ⟨fun m => m⟩

/-- Dict assignment `d[k] = v`. -/
def Map.set (d : Map) (k v : String) : Map :=
  Function.update d k v

/-- Python `str.strip()`: drop whitespace from both ends.  Implemented
structurally on the character list so that it evaluates by kernel
reduction. -/
def pyStrip (s : String) : String :=
  String.mk (((s.toList.dropWhile Char.isWhitespace).reverse.dropWhile
    Char.isWhitespace).reverse)

/-- Python `str.lower()`. -/
def pyLower (s : String) : String :=
  String.mk (s.toList.map Char.toLower)

/-- Python `s.startswith(t)`. -/
def pyStartswith (s t : String) : Bool :=
  t.toList.isPrefixOf s.toList

/-- Python `value.replace('.', '')`. -/
def removeDots (s : String) : String :=
  String.mk (s.toList.filter (· ≠ '.'))

/-- Python `needle in hay` on strings (substring containment). -/
def pyIn (needle hay : String) : Bool :=
  go needle.toList hay.toList
where
  go (n : List Char) : List Char → Bool
  | [] => n.isEmpty
  | c :: t => n.isPrefixOf (c :: t) || go n t

/-- Splitting a character list at a separator character. -/
def splitOnChar (sep : Char) : List Char → List (List Char)
  | [] => [[]]
  | c :: t =>
    if c = sep then [] :: splitOnChar sep t
    else
      match splitOnChar sep t with
      | [] => [[c]]
      | g :: gs => (c :: g) :: gs

/-- Python `s.split(sep)` for a one-character separator. -/
def pySplitOn (s : String) (sep : Char) : List String :=
  (splitOnChar sep s.toList).map String.mk

/-- Python `s[:n]`. -/
def pyTake (s : String) (n : Nat) : String :=
  String.mk (s.toList.take n)

/-- Python `s[n:]`. -/
def pyDrop (s : String) (n : Nat) : String :=
  String.mk (s.toList.drop n)

variable {α : Type} [LinearOrderedCommRing α]

/-- Configuration injected into the core (spec section 6): the
first-round minimum-score multiplier and the evidence score range
whose low bound defines a veto. -/
structure Config (α : Type) where
  minScore : α
  rangeLo : α
  rangeHi : α
deriving DecidableEq

/-- Modelled from the spec: the `Evidences` class lives in
`referencesrv/resolver/common.py`, which is not part of the sources
under review.  Spec section 3 describes it as an ordered sequence of
(weight, reason) entries; the aggregate score is the documented default
combination (straight sum of entry weights, spec section 9), the entry
count is the sequence length, and an entry is a veto iff its weight
equals the configured minimum of the evidence score range. -/
structure Evidences (α : Type) where
  entries : List (α × String)
deriving DecidableEq

/-- Modelled from the spec: aggregate score = sum of entry weights. -/
def Evidences.score (e : Evidences α) : α :=
  (e.entries.map Prod.fst).sum

/-- Modelled from the spec: `len(evidences)` = number of entries. -/
def Evidences.count (e : Evidences α) : Nat :=
  e.entries.length

/-- Modelled from the spec: `has_veto` is true iff some entry weight
equals the configured minimum of the evidence score range. -/
def Evidences.hasVeto (cfg : Config α) (e : Evidences α) : Bool :=
  e.entries.any (fun p => p.1 = cfg.rangeLo)

/-- Modelled from the spec: `single_veto_from(token)` is true iff
exactly one entry is a veto and that entry's reason is `token`. -/
def Evidences.singleVetoFrom (cfg : Config α) (e : Evidences α) (token : String) : Bool :=
  match e.entries.filter (fun p => p.1 = cfg.rangeLo) with
  | [p] => p.2 = token
  | _ => false

/-- A backend (solr) result record, restricted to the fields the
chooser reads: `solution["bibcode"]` and `solution["title"]`. -/
structure SolrResult where
  bibcode : String
  title : String
deriving DecidableEq

/-- The part of a `Hypothesis` that the chooser consults:
`hypothesis.get_detail("input_fields")`, which is `None` or the
digested record. -/
structure SolveHyp where
  inputFields : Option Map

/-- Exceptions-as-values outcome of the chooser (spec section 9 note):
`accepted` is a normal return, `undecidable` carries the
`considered_solutions` (score, bibcode) stash, `nosolution` is the
`NoSolution` exception. -/
inductive Outcome (α : Type) where
  | accepted (ev : Evidences α) (sol : SolrResult)
  | undecidable (considered : List (α × String))
  | nosolution
deriving DecidableEq

/-- Embeds `inspect_doubtful_solutions` (solve.py lines 104-134): keep
non-vetoed candidates; exactly one left raises `Undecidable` carrying
it; else, when the hypothesis has input fields without a page, the
first candidate whose single veto comes from `page` is raised as
`Undecidable`; otherwise `NoSolution`. -/
def inspectDoubtfulSolutions (cfg : Config α) (scored : List (Evidences α × SolrResult))
    (hyp : SolveHyp) : Outcome α :=
  let nonVeto := scored.filter (fun p => !(p.1.hasVeto cfg))
  match nonVeto with
  | [p] => .undecidable [(p.1.score, p.2.bibcode)]
  | _ =>
    match hyp.inputFields with
    | some f =>
      if f "page" = "" then
        match scored.find? (fun p => p.1.singleVetoFrom cfg "page") with
        | some p => .undecidable [(p.1.score, p.2.bibcode)]
        | none => .nosolution
      else .nosolution
    | none => .nosolution

/-- Embeds `inspect_ambiguous_solutions` (solve.py lines 137-177): discard
vetoed candidates; one left is returned; none left falls back to the
doubtful inspection; otherwise the last (leading) candidate wins when
it has strictly more evidence entries than the runner-up, or when the
title test `t1 and t2 and t1.startswith(t2) or t2.startswith(t1)`
(Python precedence preserved) succeeds on the lowered, trimmed titles;
else `Undecidable` stashing every non-vetoed candidate whose score
exceeds the low end of the evidence score range. -/
def inspectAmbiguousSolutions (cfg : Config α) (scored : List (Evidences α × SolrResult))
    (hyp : SolveHyp) : Outcome α :=
  let nonVetoed := scored.filter (fun p => !(p.1.hasVeto cfg))
  match nonVetoed.reverse with
  | [] => inspectDoubtfulSolutions cfg scored hyp
  | [p] => .accepted p.1 p.2
  | leader :: runnerUp :: _ =>
    if runnerUp.1.count < leader.1.count then .accepted leader.1 leader.2
    else
      let t1 := pyStrip (pyLower leader.2.title)
      let t2 := pyStrip (pyLower runnerUp.2.title)
      if (t1 ≠ "" ∧ t2 ≠ "" ∧ pyStartswith t1 t2) ∨ pyStartswith t2 t1 then
        .accepted leader.1 leader.2
      else
        .undecidable ((nonVetoed.filter (fun p => decide (cfg.rangeLo < p.1.score))).map
          (fun p => (p.1.score, p.2.bibcode)))

/-- Does a candidate clear the first-round threshold
`score >= min_score * len(score)`? -/
def clearsThreshold (cfg : Config α) (e : Evidences α) : Prop :=
  cfg.minScore * (e.count : α) ≤ e.score

instance (cfg : Config α) (e : Evidences α) : Decidable (clearsThreshold cfg e) := by
  unfold clearsThreshold; infer_instance

/-- Best aggregate score of a candidate list
(`max(item[0].get_score() for item in filtered)`). -/
def bestScore : List (Evidences α × SolrResult) → α
  | [] => 0
  | p :: ps => ps.foldl (fun m q => max m q.1.score) p.1.score

/-- Embeds `choose_solution` (solve.py lines 180-218): filter by the
count-weighted threshold; no survivor inspects the unfiltered list as
doubtful (or fails when it was empty); a single survivor is accepted;
among several survivors a unique best-scoring one is accepted,
otherwise `Undecidable` (with no stash). -/
def chooseSolution (cfg : Config α) (candidates : List (Evidences α × SolrResult))
    (hyp : SolveHyp) : Outcome α :=
  let filtered := candidates.filter (fun p => decide (clearsThreshold cfg p.1))
  match filtered with
  | [] =>
    match candidates with
    | [] => .nosolution
    | _ => inspectDoubtfulSolutions cfg candidates hyp
  | [p] => .accepted p.1 p.2
  | ps =>
    let best := bestScore ps
    match ps.filter (fun p => decide (p.1.score = best)) with
    | [p] => .accepted p.1 p.2
    | _ => .undecidable []

/-- Strict lexicographic comparison of Python `(score, bibcode)` tuples,
as used by `scored[-1][0] > scored[-2][0]` in `solve_reference`. -/
def pairLt (a b : α × String) : Prop :=
  a.1 < b.1 ∨ (a.1 = b.1 ∧ a.2 < b.2)

instance (a b : α × String) : Decidable (pairLt a b) := by
  unfold pairLt; infer_instance

/-- Non-strict lexicographic order on `((score, bibcode), bibcode)`
triples, the element type of `scored` in `solve_reference`'s final
reconciliation (`sorted(zip(cands.values(), cands.keys()))`). -/
def stashLe (a b : (α × String) × String) : Prop :=
  pairLt a.1 b.1 ∨ (a.1 = b.1 ∧ (a.2 < b.2 ∨ a.2 = b.2))

instance (a b : (α × String) × String) : Decidable (stashLe a b) := by
  unfold stashLe; infer_instance

/-- Python `max` of two `(score, bibcode)` tuples. -/
def pairMax (a b : α × String) : α × String :=
  if pairLt a b then b else a

/-- Python `max(cands[bibcode])` over one bibcode's stashed pairs; the group
lists are non-empty by construction, so the `[]` case is unreachable. -/
def listPairMax : List (α × String) → α × String
  | [] => (0, "")
  | p :: ps => ps.foldl pairMax p

/-- One step of `cands.setdefault(sol, []).append((score, sol))`:
group the stashed pairs by bibcode, preserving insertion order. -/
def appendStash (acc : List (String × List (α × String))) (p : α × String) :
    List (String × List (α × String)) :=
  if acc.any (fun g => g.1 = p.2) then
    acc.map (fun g => if g.1 = p.2 then (g.1, g.2 ++ [p]) else g)
  else acc ++ [(p.2, [p])]

/-- The `Solution` built at the end of `solve_reference` from the
stash: bibcode, (score, bibcode) pair, and the rationale string. -/
structure TieSolution (α : Type) where
  bibcode : String
  score : α × String
  name : String
deriving DecidableEq

/-- The end-of-resolution reconciliation of `solve_reference`
(solve.py lines 288-304): group the stashed (score, bibcode) pairs by
bibcode, keep each bibcode's best pair, sort the groups; a single
group is returned; otherwise, when the last (best) group's pair
strictly beats the runner-up's, the code returns `scored[0]` — the
first (lowest) group; else it gives up (`none`, so the driver raises
`NoSolution`). -/
def reconcileStash (possible : List (α × String)) : Option (TieSolution α) :=
  match possible with
  | [] => none
  | _ =>
    let cands := possible.foldl appendStash []
    let groups := cands.map (fun g => (listPairMax g.2, g.1))
    let scored := List.insertionSort stashLe groups
    match scored.reverse with
    | [] => none
    | [g] => some ⟨g.2, g.1, "only remaining of tied solutions"⟩
    | best :: runnerUp :: _ =>
      match scored with
      | g0 :: _ =>
        if pairLt runnerUp.1 best.1 then some ⟨g0.2, g0.1, "best tied solution"⟩
        else none
      | [] => none

/-- External collaborators used by the query translator (author
normalization, the regex-based escapers, urllib quoting): these live
outside the sources under review and are passed in as functions. -/
structure SolveExt where
  normalizeAuthorList : String → Bool → String
  stripInitials : String → String
  urllibQuote : String → String
  urllibQuotePlus : String → String
  solrEscape : String → String

/-- Embeds `make_solr_condition_author` (solve.py lines 25-35): strip the
initials from the normalized author list, split on `;`, quote each
trimmed author and AND-join. -/
def makeSolrConditionAuthor (ext : SolveExt) (value : String) : String :=
  let v := ext.stripInitials (ext.normalizeAuthorList value ('.' ∈ value.toList))
  String.intercalate " AND " ((pySplitOn v ';').map (fun s => "\"" ++ pyStrip s ++ "\""))

/-- The alphabet used for first-character substitution in the page
rule: `chr(ord('a'))..chr(ord('z'))` then `chr(ord('0'))..chr(ord('9'))`. -/
def firstChars : List Char :=
  ((List.range 26).map (fun i => Char.ofNat ('a'.toNat + i))) ++
  ((List.range 10).map (fun i => Char.ofNat ('0'.toNat + i)))

/-- The multi-character page disjunction of `make_solr_condition`
(solve.py lines 75-83): one quoted variant per substituted leading
character, then one quoted single-position wildcard variant per
position `i in range(1, len(value))`. -/
def pageCondition (value : String) : String :=
  if value.length = 1 then "page:(" ++ value ++ ")"
  else
    let l := value.toList
    let partA := String.intercalate " or "
      (firstChars.map (fun c => "\"" ++ String.mk (c :: l.drop 1) ++ "\""))
    let partB := String.intercalate " or "
      ((List.range' 1 (l.length - 1)).map (fun i =>
        "\"" ++ String.mk (l.take i ++ '?' :: l.drop (i + 1)) ++ "\""))
    "page:(" ++ partA ++ " or " ++ partB ++ ")"

/-- Python's `str.split()`: split on whitespace runs, dropping empties. -/
def pySplit (s : String) : List String :=
  ((splitOnChar ' ' s.toList).map String.mk).filter (· ≠ "")

/-- Embeds `make_solr_condition` (solve.py lines 38-101), translated branch
by branch in source order; `HINT_TO_SOLR_KEYS` is empty, so the key is
used as is.  `'author' in key` is a substring test. -/
def makeSolrCondition (ext : SolveExt) (key value : String) : Option String :=
  if value = "" ∨ pyStrip value = "" then none
  else if key = "first_author_norm~" then
    some ("first_author:\"" ++ removeDots value ++ "\"~")
  else if pyIn "author" key then
    some (key ++ ":(" ++ removeDots (makeSolrConditionAuthor ext value) ++ ")")
  else if key = "identifier" then
    some ("identifier:\"" ++ ext.urllibQuote value ++ "\"")
  else if key = "arxiv" then
    some ("identifier:(\"arxiv:" ++ ext.urllibQuote value ++ "\" OR \"ascl:" ++
      ext.urllibQuote value ++ "\")")
  else if key = "doi" then
    some ("doi:\"" ++ ext.urllibQuotePlus value ++ "\"")
  else if key = "page" then
    some (pageCondition value)
  else if key = "title" then
    some ("title:(" ++ String.intercalate " AND " (pySplit (ext.solrEscape value)) ++ ")")
  else if key = "title~" then
    some ("title:\"" ++ ext.solrEscape value ++ "\"~")
  else if key = "bibstem" then
    some ("bibstem:(" ++ value ++ ")")
  else if key = "year~" then
    some ("year:[" ++ toString ((value.toInt?).getD 0 - 5) ++ " TO " ++
      toString ((value.toInt?).getD 0 + 5) ++ "]")
  else
    some (key ++ ":\"" ++ ext.solrEscape value ++ "\"")

/-- Following the words of claim C7 / spec section 4.5: the page rule
expands a multi-character page into (a) one quoted variant for every
possible leading character substituted in position 0 followed by the
remaining characters, and (b) one single-position wildcard variant for
every position of the value. -/
def pageConditionClaimed (value : String) : String :=
  if value.length = 1 then "page:(" ++ value ++ ")"
  else
    let l := value.toList
    let partA := String.intercalate " or "
      (firstChars.map (fun c => "\"" ++ String.mk (c :: l.drop 1) ++ "\""))
    let partB := String.intercalate " or "
      ((List.range l.length).map (fun i =>
        "\"" ++ String.mk (l.take i ++ '?' :: l.drop (i + 1)) ++ "\""))
    "page:(" ++ partA ++ " or " ++ partB ++ ")"

/-- Claim C7 amended: same as `pageConditionClaimed`, except that the
wildcard variants cover every position except position 0. -/
def pageConditionAmended (value : String) : String :=
  if value.length = 1 then "page:(" ++ value ++ ")"
  else
    let l := value.toList
    let partA := String.intercalate " or "
      (firstChars.map (fun c => "\"" ++ String.mk (c :: l.drop 1) ++ "\""))
    let partB := String.intercalate " or "
      (((List.range l.length).drop 1).map (fun i =>
        "\"" ++ String.mk (l.take i ++ '?' :: l.drop (i + 1)) ++ "\""))
    "page:(" ++ partA ++ " or " ++ partB ++ ")"

instance {ε σ : Type} [DecidableEq ε] [DecidableEq σ] : DecidableEq (Except ε σ) := fun x y =>
  match x, y with
  | .ok u, .ok v =>
    if h : u = v then .isTrue (congrArg Except.ok h)
    else .isFalse (fun hc => h (Except.ok.inj hc))
  | .error u, .error v =>
    if h : u = v then .isTrue (congrArg Except.error h)
    else .isFalse (fun hc => h (Except.error.inj hc))
  | .ok _, .error _ => .isFalse (fun hc => Except.noConfusion hc)
  | .error _, .ok _ => .isFalse (fun hc => Except.noConfusion hc)

/-- Embeds `Hypotheses.field_mappings` (hypotheses.py lines 15-27), in source
order: destination key in the digested record, source key in the raw
reference. -/
def fieldMappings : List (String × String) :=
  [("author", "authors"), ("pub", "journal"), ("pub", "book"),
   ("volume", "volume"), ("issue", "issue"), ("page", "page"),
   ("year", "year"), ("title", "title"), ("refstr", "refstr"),
   ("doi", "doi"), ("arxiv", "arxiv")]

/-- The field-mapping loop of `make_digested_record` (hypotheses.py
lines 47-51): later mappings overwrite earlier ones, and a key is only
set for a truthy source value. -/
def digestedBase (r : Map) : Map :=
  fieldMappings.foldl (fun d m => if r m.2 ≠ "" then d.set m.1 (r m.2) else d) Map.empty

/-- External collaborators of the hypothesis generator that live
outside the sources under review (author normalization, bibstem
lookup, title cooking, thesis detection, the regex engine used for the
`et al` substitution and the conference-series table, and the
`THESIS_INDICATOR_WORDS` configuration). -/
structure HypExt where
  etalSub : String → String
  normalizeAuthorList : String → Bool → String
  stripInitials : String → String
  getBestBibstemFor : String → String
  cookTitleString : String → String
  hasThesisIndicators : String → Bool
  thesisIndicatorWords : List String
  confSeriesMatches : String → List String

/-- The letters of `JOURNAL_LETTER_ATTACHED_VOLUME` (hypotheses.py
line 30). -/
def volLetters : List Char := ['A', 'B', 'C', 'D', 'E', 'F', 'G', 'I', 'T']

/-- Match of `^([ABCDEFGIT])\d+$` against the volume field: one of the
fixed letters followed by at least one digit, to the end. -/
def letterVolume (s : String) : Bool :=
  match s.toList with
  | [] => false
  | c :: rest => volLetters.contains c && !rest.isEmpty && rest.all Char.isDigit

/-- Match of the anchored year pattern `^([12][089]\d\d)` at the
head of a character list: the match exists iff the list starts with
1 or 2, then 0, 8 or 9, then two digits, and it is those 4 characters. -/
def leadingYearRun : List Char → Option (List Char)
  | c1 :: c2 :: c3 :: c4 :: _ =>
    if (c1 = '1' ∨ c1 = '2') ∧ (c2 = '0' ∨ c2 = '8' ∨ c2 = '9') ∧ c3.isDigit ∧ c4.isDigit
    then some [c1, c2, c3, c4] else none
  | _ => none

/-- The anchored year pattern match of hypotheses.py line 61, on a
string. -/
def leadingYearMatch (s : String) : Option String :=
  (leadingYearRun s.toList).map String.mk

/-- Python `page.split("-")[0]`: the characters before the first `-`. -/
def pageStart (s : String) : String :=
  String.mk (s.toList.takeWhile (· ≠ '-'))

/-- Python `"-" in page`. -/
def hasDash (s : String) : Bool :=
  s.toList.contains '-'

/-- The author block of `make_digested_record` (hypotheses.py lines
53-57): strip `et al`, normalize, and derive the first author's last
name.  Returns the updated record, `normalized_authors` and
`normalized_first_author` (both `""` when there is no author). -/
def digestAuthorStep (ext : HypExt) (d : Map) : Map × String × String :=
  if d "author" = "" then (d, "", "")
  else
    let a := ext.etalSub (d "author")
    let na := ext.normalizeAuthorList a true
    let nfa := pyStrip ((pySplitOn (ext.stripInitials na) ';').headD "")
    (d.set "author" a, na, nfa)

/-- The year block of `make_digested_record` (hypotheses.py lines
59-61): a year longer than 4 characters is replaced by the anchored
`^([12][089]\d\d)` match; `re.findall(...)[0]` raises `IndexError`
when there is no match, embedded as an `error` result. -/
def digestYearStep (d : Map) : Except String Map :=
  if d "year" ≠ "" ∧ (d "year").length > 4 then
    match leadingYearMatch (d "year") with
    | some y => .ok (d.set "year" y)
    | none => .error "IndexError: year does not start with [12][089]dd"
  else .ok d

/-- The page block of `make_digested_record` (hypotheses.py lines
63-65): a page containing `-` is replaced by its range start. -/
def digestPageStep (d : Map) : Map :=
  if hasDash (d "page") then d.set "page" (pageStart (d "page")) else d

/-- The volume block of `make_digested_record` (hypotheses.py lines
67-74): a volume matching `^([ABCDEFGIT])\d+$` next to a pub moves its
leading letter onto the pub. -/
def digestVolumeStep (d : Map) : Map :=
  if d "volume" ≠ "" ∧ d "pub" ≠ "" then
    if letterVolume (d "volume") then
      (d.set "pub" (d "pub" ++ " " ++ pyTake (d "volume") 1)).set "volume"
        (pyDrop (d "volume") 1)
    else d
  else d

/-- The digested record together with the normalized author data
computed by `make_digested_record` (`""` encodes Python `None`). -/
structure DigestResult where
  d : Map
  normalizedAuthors : String
  normalizedFirstAuthor : String

/-- Embeds `Hypotheses.make_digested_record` (hypotheses.py lines 40-74):
field mapping, author normalization, year truncation (which can fail),
page-range start, lettered-volume repair, in source order. -/
def makeDigestedRecord (ext : HypExt) (r : Map) : Except String DigestResult :=
  let step := digestAuthorStep ext (digestedBase r)
  match digestYearStep step.1 with
  | .error e => .error e
  | .ok d2 => .ok ⟨digestVolumeStep (digestPageStep d2), step.2.1, step.2.2⟩

/-- Python `n * '.'` — the dot filler (empty for a non-positive count, as in
Python). -/
def dots (n : Nat) : String :=
  String.mk (List.replicate n '.')

/-- Embeds `Hypotheses.construct_bibcode` (hypotheses.py lines 99-122): year,
bibstem right-padded to 5 with dots, volume left-padded to 4, page
qualifier (default `.`), page truncated to 4 and left-padded, first
character of the normalized authors (`.` when there is none).  Python's
negative string repetition is empty, so overlong fields are not
truncated (except the page). -/
def constructBibcode (ext : HypExt) (d : Map) (na : String) : String :=
  let year := d "year"
  let journal0 := ext.getBestBibstemFor (d "pub")
  let journal := journal0 ++ dots (5 - journal0.length)
  let volume := dots (4 - (d "volume").length) ++ d "volume"
  let pageQualifier := if d "qualifier" = "" then "." else d "qualifier"
  let page0 := pyTake (d "page") 4
  let page := dots (4 - page0.length) ++ page0
  let initial := if na = "" then "." else pyTake na 1
  year ++ journal ++ volume ++ pageQualifier ++ page ++ initial

/-- Reference to one of the external scoring strategies that a
hypothesis names (the scorers themselves are out of scope). -/
inductive ScorerRef where
  | referenceIdentifier
  | serial
  | book
  | thesis
  | basic
  | baas
deriving DecidableEq

/-- A generated `Hypothesis`: strategy name, query hints, scorer
reference and the `input_fields` detail.  The remaining detail-bag
entries (`page_qualifier`, `has_etal`, `normalized_authors`,
`expected_bibstem`) are consumed only by the external scorers and are
not embedded. -/
structure Hyp where
  name : String
  hints : Map
  scorer : ScorerRef
  inputFields : Map

/-- Embeds `change_dict` (specialrules.py lines 14-32): a copy of `base` less
`delKeys`, updated with `kvs`. -/
def changeDict (base : Map) (delKeys : List String) (kvs : List (String × String)) : Map :=
  fun k =>
    match kvs.find? (fun p => p.1 = k) with
    | some p => p.2
    | none => if delKeys.contains k then "" else base k

/-- The `input_fields` dict built at the top of
`iter_journal_specific_hypotheses` (specialrules.py lines 131-138)
from the truthy values among author, bibstem, volume, year, page, pub. -/
def jsInputFields (author bibstem volume year page journal : String) : Map :=
  fun k =>
    if k = "author" then author
    else if k = "bibstem" then bibstem
    else if k = "volume" then volume
    else if k = "year" then year
    else if k = "page" then page
    else if k = "pub" then journal
    else ""

/-- Embeds `iter_journal_specific_hypotheses` (specialrules.py lines
108-182): the BAAS triple, the LPSC volume-dropping hypothesis, the
ApJ→ApJL retry, and one hypothesis per conference-series pattern that
matches the raw journal string (the regex table is queried through the
`confSeriesMatches` oracle). -/
def iterJournalSpecificHypotheses (ext : HypExt) (bibstem year author journal volume page
    _fullReference : String) : List Hyp :=
  let inputFields := jsInputFields author bibstem volume year page journal
  (if bibstem = "BAAS" then
    [⟨"extra-BAAS->DDA", changeDict inputFields ["volume", "page", "pub"]
        [("bibstem", "DDA")], .baas, inputFields⟩,
     ⟨"extra-BAAS->AAS", changeDict inputFields ["volume", "page", "pub"]
        [("bibstem", "AAS")], .baas, inputFields⟩,
     ⟨"extra-BAAS->DPS", changeDict inputFields ["volume", "page", "pub"]
        [("bibstem", "DPS")], .baas, inputFields⟩]
   else []) ++
  (if bibstem = "LPSC" then
    [⟨"LPSC-ignore-volume", changeDict inputFields ["volume", "pub"] [], .basic,
        changeDict inputFields ["volume"] []⟩]
   else []) ++
  (if bibstem = "ApJ" then
    [⟨"extra-ApJ->ApJL", changeDict inputFields ["pub"] [("bibstem", "ApJL")], .serial,
        inputFields⟩]
   else []) ++
  (if journal ≠ "" then
    (ext.confSeriesMatches journal).map (fun stem =>
      ⟨"fielded-confser-" ++ stem, changeDict inputFields ["pub"] [("bibstem", stem)],
        .basic, inputFields⟩)
   else [])

/-- Embeds `Hypotheses.has_keys` (hypotheses.py lines 76-86). -/
def hasKeys (d : Map) (ks : List String) : Bool :=
  ks.all (fun k => d k ≠ "")

/-- Embeds `Hypotheses.lacks_keys` (hypotheses.py lines 88-97). -/
def lacksKeys (d : Map) (ks : List String) : Bool :=
  ks.all (fun k => d k = "")

/-- Embeds `Hypotheses.iter_hypotheses` (hypotheses.py lines 124-304): the
ordered cascade of hypotheses, each gated on field presence.
`hasEtal` is the result of `ETAL_PAT.search(str(self.ref))`.  The
`fielded-bibcode` step stores the constructed bibcode in the digested
record, and the special-rule step stores the bibstem, both visible to
the later steps' `input_fields`. -/
def iterHypotheses (ext : HypExt) (_hasEtal : Bool) (dr : DigestResult) : List Hyp :=
  let d := dr.d
  let na := dr.normalizedAuthors
  let nfa := dr.normalizedFirstAuthor
  let hDoi : List Hyp := if hasKeys d ["doi"] then
    [⟨"fielded-DOI", Map.empty.set "doi" (d "doi"), .referenceIdentifier, d⟩] else []
  let hArxiv : List Hyp := if hasKeys d ["arxiv"] then
    [⟨"fielded-arxiv", Map.empty.set "arxiv" (d "arxiv"), .referenceIdentifier, d⟩] else []
  let d := if hasKeys d ["author", "year", "pub"] then
    d.set "bibcode" (constructBibcode ext d na) else d
  let hBibcode : List Hyp := if hasKeys d ["author", "year", "pub"] then
    [⟨"fielded-bibcode", Map.empty.set "bibcode" (d "bibcode"), .referenceIdentifier, d⟩]
    else []
  let hAyvp : List Hyp := if hasKeys d ["author", "year", "volume", "page"] then
    [⟨"fielded-auth/year/volume/page",
      (((Map.empty.set "author" na).set "year" (d "year")).set "volume"
        (d "volume")).set "page" (d "page"), .serial, d⟩] else []
  let hApy : List Hyp := if hasKeys d ["author", "pub", "year"] then
    [⟨"fielded-auth/pub/year",
      ((Map.empty.set "author" na).set "bibstem"
        (ext.getBestBibstemFor (d "pub"))).set "year" (d "year"), .serial, d⟩] else []
  let hTitle : List Hyp := if hasKeys d ["author", "year", "title"] then
    [⟨"fielded-title",
      ((Map.empty.set "first_author_norm" nfa).set "year" (d "year")).set "title"
        (d "title"), .serial, d⟩] else []
  let hBook : List Hyp := if hasKeys d ["author", "pub", "year"] && lacksKeys d ["title"] then
    let cleaned := ext.cookTitleString (d "pub")
    let cleanedTitle := if cleaned.length < 15 then d "pub" else cleaned
    [⟨"fielded-book",
      ((Map.empty.set "author" na).set "title" cleanedTitle).set "year" (d "year"),
      .book, d⟩] else []
  let hThesis : List Hyp := if hasKeys d ["author", "year", "refstr"] &&
      lacksKeys d ["volume", "page"] && ext.hasThesisIndicators (d "refstr") then
    [⟨"fielded-thesis",
      ((Map.empty.set "author" na).set "pub_escaped"
        ("(" ++ String.intercalate " or " ext.thesisIndicatorWords ++ ")")).set "year"
        (d "year"), .thesis, d⟩] else []
  let d := if d "pub" ≠ "" then d.set "bibstem" (ext.getBestBibstemFor (d "pub")) else d
  let hSpecial : List Hyp := if d "pub" ≠ "" then
    iterJournalSpecificHypotheses ext (d "bibstem") (d "year") na (d "pub") (d "volume")
      (d "page") (d "refstr") else []
  let hAuthorPage : List Hyp := if hasKeys d ["author"] && decide (2 < (d "page").length) then
    [⟨"fielded-author/page",
      (Map.empty.set "author" na).set "page" (pageStart (d "page")), .serial, d⟩] else []
  let hFanYear : List Hyp := if hasKeys d ["author", "year"] then
    [⟨"fielded-first-author-norm/year",
      (Map.empty.set "first_author_norm" nfa).set "year" (d "year"), .serial, d⟩] else []
  let hFanApprox : List Hyp := if hasKeys d ["author", "year"] then
    [⟨"fielded-first-author-norm~/year",
      (Map.empty.set "first_author_norm~" nfa).set "year" (d "year"), .serial, d⟩] else []
  let hYearApprox : List Hyp := if hasKeys d ["author", "year"] then
    [⟨"fielded-author-norm/year~",
      (Map.empty.set "author" na).set "year~" (d "year"), .serial, d⟩] else []
  let hNoAuthor : List Hyp := if hasKeys d ["year", "pub", "volume", "page"] then
    [⟨"fielded-no-author",
      (((Map.empty.set "bibstem" (ext.getBestBibstemFor (d "pub"))).set "year"
        (d "year")).set "volume" (d "volume")).set "page"
        (d "qualifier" ++ d "page"), .serial, d⟩] else []
  let hNoYear : List Hyp := if hasKeys d ["author", "pub", "volume", "page"] then
    [⟨"fielded-no-year",
      (((Map.empty.set "author" na).set "bibstem"
        (ext.getBestBibstemFor (d "pub"))).set "volume" (d "volume")).set "page"
        (d "page"), .serial, d⟩] else []
  hDoi ++ hArxiv ++ hBibcode ++ hAyvp ++ hApy ++ hTitle ++ hBook ++ hThesis ++
    hSpecial ++ hAuthorPage ++ hFanYear ++ hFanApprox ++ hYearApprox ++ hNoAuthor ++ hNoYear

/-- A raw reference record carrying the already-digested field values
back on their source keys (the digested `pub` returns as `journal`),
used to state idempotence of digestion. -/
def redigestInput (d : Map) : Map :=
  fun k =>
    if k = "authors" then d "author"
    else if k = "journal" then d "pub"
    else if k = "volume" then d "volume"
    else if k = "issue" then d "issue"
    else if k = "page" then d "page"
    else if k = "year" then d "year"
    else if k = "title" then d "title"
    else if k = "refstr" then d "refstr"
    else if k = "doi" then d "doi"
    else if k = "arxiv" then d "arxiv"
    else ""

/-- One fold step of `digestedBase` leaves keys other than its
destination unchanged. -/
theorem foldStep_ne (d r : Map) (dest src k : String) (h : dest ≠ k) :
    (if r src ≠ "" then Map.set d dest (r src) else d) k = d k := by
  unfold Map.set
  split
  · exact Function.update_noteq (fun hk => h hk.symm) _ _
  · rfl

/-- One fold step of `digestedBase` at its own destination key. -/
theorem foldStep_eq (d r : Map) (src k : String) :
    (if r src ≠ "" then Map.set d k (r src) else d) k =
      if r src ≠ "" then r src else d k := by
  unfold Map.set
  split
  · exact Function.update_same _ _ _
  · rfl

theorem digestedBase_author (r : Map) : digestedBase r "author" = r "authors" := by
  unfold digestedBase fieldMappings
  simp only [List.foldl]
  rw [foldStep_ne _ _ _ _ _ (by decide), foldStep_ne _ _ _ _ _ (by decide),
      foldStep_ne _ _ _ _ _ (by decide), foldStep_ne _ _ _ _ _ (by decide),
      foldStep_ne _ _ _ _ _ (by decide), foldStep_ne _ _ _ _ _ (by decide),
      foldStep_ne _ _ _ _ _ (by decide), foldStep_ne _ _ _ _ _ (by decide),
      foldStep_ne _ _ _ _ _ (by decide), foldStep_ne _ _ _ _ _ (by decide),
      foldStep_eq]
  by_cases h : r "authors" = "" <;> simp [h, Map.empty]

theorem digestedBase_pub (r : Map) :
    digestedBase r "pub" = if r "book" ≠ "" then r "book" else r "journal" := by
  unfold digestedBase fieldMappings
  simp only [List.foldl]
  rw [foldStep_ne _ _ _ _ _ (by decide), foldStep_ne _ _ _ _ _ (by decide),
      foldStep_ne _ _ _ _ _ (by decide), foldStep_ne _ _ _ _ _ (by decide),
      foldStep_ne _ _ _ _ _ (by decide), foldStep_ne _ _ _ _ _ (by decide),
      foldStep_ne _ _ _ _ _ (by decide), foldStep_ne _ _ _ _ _ (by decide),
      foldStep_eq, foldStep_eq, foldStep_ne _ _ _ _ _ (by decide)]
  by_cases hb : r "book" = "" <;> by_cases hj : r "journal" = "" <;>
    simp [hb, hj, Map.empty]

theorem digestedBase_volume (r : Map) : digestedBase r "volume" = r "volume" := by
  unfold digestedBase fieldMappings
  simp only [List.foldl]
  rw [foldStep_ne _ _ _ _ _ (by decide), foldStep_ne _ _ _ _ _ (by decide),
      foldStep_ne _ _ _ _ _ (by decide), foldStep_ne _ _ _ _ _ (by decide),
      foldStep_ne _ _ _ _ _ (by decide), foldStep_ne _ _ _ _ _ (by decide),
      foldStep_ne _ _ _ _ _ (by decide),
      foldStep_eq,
      foldStep_ne _ _ _ _ _ (by decide), foldStep_ne _ _ _ _ _ (by decide),
      foldStep_ne _ _ _ _ _ (by decide)]
  by_cases h : r "volume" = "" <;> simp [h, Map.empty]

theorem digestedBase_issue (r : Map) : digestedBase r "issue" = r "issue" := by
  unfold digestedBase fieldMappings
  simp only [List.foldl]
  rw [foldStep_ne _ _ _ _ _ (by decide), foldStep_ne _ _ _ _ _ (by decide),
      foldStep_ne _ _ _ _ _ (by decide), foldStep_ne _ _ _ _ _ (by decide),
      foldStep_ne _ _ _ _ _ (by decide), foldStep_ne _ _ _ _ _ (by decide),
      foldStep_eq,
      foldStep_ne _ _ _ _ _ (by decide), foldStep_ne _ _ _ _ _ (by decide),
      foldStep_ne _ _ _ _ _ (by decide), foldStep_ne _ _ _ _ _ (by decide)]
  by_cases h : r "issue" = "" <;> simp [h, Map.empty]

theorem digestedBase_page (r : Map) : digestedBase r "page" = r "page" := by
  unfold digestedBase fieldMappings
  simp only [List.foldl]
  rw [foldStep_ne _ _ _ _ _ (by decide), foldStep_ne _ _ _ _ _ (by decide),
      foldStep_ne _ _ _ _ _ (by decide), foldStep_ne _ _ _ _ _ (by decide),
      foldStep_ne _ _ _ _ _ (by decide),
      foldStep_eq,
      foldStep_ne _ _ _ _ _ (by decide), foldStep_ne _ _ _ _ _ (by decide),
      foldStep_ne _ _ _ _ _ (by decide), foldStep_ne _ _ _ _ _ (by decide),
      foldStep_ne _ _ _ _ _ (by decide)]
  by_cases h : r "page" = "" <;> simp [h, Map.empty]

theorem digestedBase_year (r : Map) : digestedBase r "year" = r "year" := by
  unfold digestedBase fieldMappings
  simp only [List.foldl]
  rw [foldStep_ne _ _ _ _ _ (by decide), foldStep_ne _ _ _ _ _ (by decide),
      foldStep_ne _ _ _ _ _ (by decide), foldStep_ne _ _ _ _ _ (by decide),
      foldStep_eq,
      foldStep_ne _ _ _ _ _ (by decide), foldStep_ne _ _ _ _ _ (by decide),
      foldStep_ne _ _ _ _ _ (by decide), foldStep_ne _ _ _ _ _ (by decide),
      foldStep_ne _ _ _ _ _ (by decide), foldStep_ne _ _ _ _ _ (by decide)]
  by_cases h : r "year" = "" <;> simp [h, Map.empty]

theorem digestedBase_title (r : Map) : digestedBase r "title" = r "title" := by
  unfold digestedBase fieldMappings
  simp only [List.foldl]
  rw [foldStep_ne _ _ _ _ _ (by decide), foldStep_ne _ _ _ _ _ (by decide),
      foldStep_ne _ _ _ _ _ (by decide),
      foldStep_eq,
      foldStep_ne _ _ _ _ _ (by decide), foldStep_ne _ _ _ _ _ (by decide),
      foldStep_ne _ _ _ _ _ (by decide), foldStep_ne _ _ _ _ _ (by decide),
      foldStep_ne _ _ _ _ _ (by decide), foldStep_ne _ _ _ _ _ (by decide),
      foldStep_ne _ _ _ _ _ (by decide)]
  by_cases h : r "title" = "" <;> simp [h, Map.empty]

theorem digestedBase_refstr (r : Map) : digestedBase r "refstr" = r "refstr" := by
  unfold digestedBase fieldMappings
  simp only [List.foldl]
  rw [foldStep_ne _ _ _ _ _ (by decide), foldStep_ne _ _ _ _ _ (by decide),
      foldStep_eq,
      foldStep_ne _ _ _ _ _ (by decide), foldStep_ne _ _ _ _ _ (by decide),
      foldStep_ne _ _ _ _ _ (by decide), foldStep_ne _ _ _ _ _ (by decide),
      foldStep_ne _ _ _ _ _ (by decide), foldStep_ne _ _ _ _ _ (by decide),
      foldStep_ne _ _ _ _ _ (by decide), foldStep_ne _ _ _ _ _ (by decide)]
  by_cases h : r "refstr" = "" <;> simp [h, Map.empty]

theorem digestedBase_doi (r : Map) : digestedBase r "doi" = r "doi" := by
  unfold digestedBase fieldMappings
  simp only [List.foldl]
  rw [foldStep_ne _ _ _ _ _ (by decide),
      foldStep_eq,
      foldStep_ne _ _ _ _ _ (by decide), foldStep_ne _ _ _ _ _ (by decide),
      foldStep_ne _ _ _ _ _ (by decide), foldStep_ne _ _ _ _ _ (by decide),
      foldStep_ne _ _ _ _ _ (by decide), foldStep_ne _ _ _ _ _ (by decide),
      foldStep_ne _ _ _ _ _ (by decide), foldStep_ne _ _ _ _ _ (by decide),
      foldStep_ne _ _ _ _ _ (by decide)]
  by_cases h : r "doi" = "" <;> simp [h, Map.empty]

theorem digestedBase_arxiv (r : Map) : digestedBase r "arxiv" = r "arxiv" := by
  unfold digestedBase fieldMappings
  simp only [List.foldl]
  rw [foldStep_eq,
      foldStep_ne _ _ _ _ _ (by decide), foldStep_ne _ _ _ _ _ (by decide),
      foldStep_ne _ _ _ _ _ (by decide), foldStep_ne _ _ _ _ _ (by decide),
      foldStep_ne _ _ _ _ _ (by decide), foldStep_ne _ _ _ _ _ (by decide),
      foldStep_ne _ _ _ _ _ (by decide), foldStep_ne _ _ _ _ _ (by decide),
      foldStep_ne _ _ _ _ _ (by decide), foldStep_ne _ _ _ _ _ (by decide)]
  by_cases h : r "arxiv" = "" <;> simp [h, Map.empty]

theorem digestAuthorStep_ne (ext : HypExt) (d : Map) (k : String) (h : k ≠ "author") :
    (digestAuthorStep ext d).1 k = d k := by
  unfold digestAuthorStep
  split
  · rfl
  · exact Function.update_noteq h _ _

theorem digestYearStep_ok_ne (d d2 : Map) (h : digestYearStep d = .ok d2) (k : String)
    (hk : k ≠ "year") : d2 k = d k := by
  unfold digestYearStep at h
  split at h
  · split at h
    · cases h
      exact Function.update_noteq hk _ _
    · cases h
  · cases h
    rfl

/-- A successful anchored year match is the leading 4 characters. -/
theorem leadingYearRun_shape (l y : List Char) (h : leadingYearRun l = some y) :
    y = l.take 4 ∧ y.length = 4 := by
  rcases l with _ | ⟨c1, _ | ⟨c2, _ | ⟨c3, _ | ⟨c4, rest⟩⟩⟩⟩ <;>
    simp only [leadingYearRun] at h <;> try cases h
  split at h
  · injection h with h1
    rw [← h1]
    exact ⟨rfl, rfl⟩
  · cases h

theorem leadingYearMatch_length (s y : String) (h : leadingYearMatch s = some y) :
    y.length = 4 := by
  unfold leadingYearMatch at h
  cases hr : leadingYearRun s.toList with
  | none => rw [hr] at h; cases h
  | some yl =>
    rw [hr] at h
    injection h with h1
    rw [← h1]
    exact (leadingYearRun_shape _ _ hr).2

theorem digestYearStep_ok_year_len (d d2 : Map) (h : digestYearStep d = .ok d2) :
    (d2 "year").length ≤ 4 := by
  unfold digestYearStep at h
  split at h
  · rename_i hc
    split at h
    · rename_i y hy
      cases h
      unfold Map.set
      rw [Function.update_same]
      exact le_of_eq (leadingYearMatch_length _ _ hy)
    · cases h
  · rename_i hc
    cases h
    rcases not_and_or.mp hc with h1 | h2
    · have h0 : d "year" = "" := not_not.mp h1
      rw [h0]
      decide
    · omega

theorem digestYearStep_skip (d : Map) (h : (d "year").length ≤ 4) :
    digestYearStep d = .ok d := by
  unfold digestYearStep
  rw [if_neg]
  intro hc
  omega

theorem digestPageStep_ne (d : Map) (k : String) (h : k ≠ "page") :
    digestPageStep d k = d k := by
  unfold digestPageStep Map.set
  split
  · exact Function.update_noteq h _ _
  · rfl

theorem pageStart_noDash (s : String) : hasDash (pageStart s) = false := by
  unfold hasDash pageStart
  rw [Bool.eq_false_iff]
  intro hc
  simp only [String.toList] at hc
  simp only [List.contains, List.elem_eq_mem, decide_eq_true_eq] at hc
  have := List.mem_takeWhile_imp hc
  simp at this

theorem digestPageStep_page_noDash (d : Map) :
    hasDash (digestPageStep d "page") = false := by
  unfold digestPageStep Map.set
  split
  · rw [Function.update_same]
    exact pageStart_noDash _
  · rename_i h
    exact Bool.not_eq_true _ ▸ h

theorem digestPageStep_skip (d : Map) (h : hasDash (d "page") = false) :
    digestPageStep d = d := by
  unfold digestPageStep
  rw [if_neg]
  simp [h]

theorem digestVolumeStep_ne (d : Map) (k : String) (h1 : k ≠ "pub") (h2 : k ≠ "volume") :
    digestVolumeStep d k = d k := by
  unfold digestVolumeStep Map.set
  split
  · split
    · rw [Function.update_noteq h2, Function.update_noteq h1]
    · rfl
  · rfl

theorem volLetters_not_digit (c : Char) (h : volLetters.contains c = true) :
    c.isDigit = false := by
  simp only [volLetters, List.contains, List.elem_eq_mem, decide_eq_true_eq,
    List.mem_cons, List.not_mem_nil, or_false] at h
  rcases h with h | h | h | h | h | h | h | h | h <;> subst h <;> decide

theorem letterVolume_drop (s : String) (h : letterVolume s = true) :
    letterVolume (pyDrop s 1) = false := by
  unfold letterVolume at h ⊢
  unfold pyDrop
  rcases hl : s.toList with _ | ⟨c, rest⟩
  · rw [hl] at h
    cases h
  · rw [hl] at h
    simp only [Bool.and_eq_true] at h
    obtain ⟨⟨hmem, hne⟩, hdig⟩ := h
    rcases rest with _ | ⟨c2, rest2⟩
    · simp at hne
    · have hd2 : c2.isDigit = true := by
        have := List.all_eq_true.mp hdig c2 (List.mem_cons_self _ _)
        simpa using this
      show (match List.drop 1 (c :: c2 :: rest2) with
        | [] => false
        | c :: rest => volLetters.contains c && !rest.isEmpty && rest.all Char.isDigit) = false
      simp only [List.drop_succ_cons, List.drop_zero]
      rcases hcon : (volLetters.contains c2) with _ | _
      · simp [hcon]
      · have hnd := volLetters_not_digit c2 hcon
        rw [hnd] at hd2
        cases hd2

theorem digestVolumeStep_inv (d : Map) :
    digestVolumeStep d "pub" = "" ∨ letterVolume (digestVolumeStep d "volume") = false := by
  unfold digestVolumeStep Map.set
  split
  · rename_i hc
    split
    · rename_i hlv
      right
      rw [Function.update_same]
      exact letterVolume_drop _ hlv
    · rename_i hlv
      right
      exact Bool.not_eq_true _ ▸ hlv
  · rename_i hc
    rcases not_and_or.mp hc with h1 | h2
    · right
      have h0 : d "volume" = "" := not_not.mp h1
      rw [h0]
      decide
    · left
      exact not_not.mp h2

theorem digestVolumeStep_skip (d : Map)
    (h : d "pub" = "" ∨ letterVolume (d "volume") = false) :
    digestVolumeStep d = d := by
  unfold digestVolumeStep
  rcases h with h | h
  · rw [if_neg]
    intro hc
    exact hc.2 h
  · split
    · rw [if_neg]
      simp [h]
    · rfl

variable {α : Type} [LinearOrderedCommRing α]

/-- The doubtful-inspection path only ever defers (`Undecidable`) or
fails (`NoSolution`); it never accepts. -/
theorem doubtful_never_accepts (cfg : Config α) (scored : List (Evidences α × SolrResult))
    (hyp : SolveHyp) (ev : Evidences α) (sol : SolrResult) :
    inspectDoubtfulSolutions cfg scored hyp ≠ Outcome.accepted ev sol := by
  unfold inspectDoubtfulSolutions
  rcases hfil : scored.filter (fun p => !(p.1.hasVeto cfg)) with _ | ⟨q, _ | ⟨q2, qs⟩⟩ <;>
    rw [hfil] <;>
      rcases hif : hyp.inputFields with _ | f <;>
        intro hc <;> (repeat' split at hc) <;> cases hc



variable {α : Type} [LinearOrderedCommRing α]

/-- Any candidate accepted by the ambiguity-resolution path is
non-vetoed: it is drawn from the filtered non-vetoed sublist. -/
theorem ambiguous_accepts_non_vetoed (cfg : Config α)
    (scored : List (Evidences α × SolrResult)) (hyp : SolveHyp) (ev : Evidences α)
    (sol : SolrResult)
    (h : inspectAmbiguousSolutions cfg scored hyp = Outcome.accepted ev sol) :
    ev.hasVeto cfg = false := by
  simp only [inspectAmbiguousSolutions] at h
  split at h
  · exact absurd h (doubtful_never_accepts cfg scored hyp ev sol)
  · rename_i p heq
    have hp : p ∈ (scored.filter (fun p => !(p.1.hasVeto cfg))).reverse := by
      rw [heq]; exact List.mem_singleton_self p
    rw [List.mem_reverse] at hp
    have hv := List.of_mem_filter hp
    injection h with h1 h2
    subst h1
    simpa using hv
  · rename_i leader runnerUp rest heq
    have hp : leader ∈ (scored.filter (fun p => !(p.1.hasVeto cfg))).reverse := by
      rw [heq]; exact List.mem_cons_self _ _
    rw [List.mem_reverse] at hp
    have hv := List.of_mem_filter hp
    split at h
    · injection h with h1 h2
      subst h1
      simpa using hv
    · split at h
      · injection h with h1 h2
        subst h1
        simpa using hv
      · cases h



/-- A concrete record literal, as an association-list lookup. -/
def recOf (l : List (String × String)) : Map :=
  fun k => (((l.find? (fun p => p.1 = k)).map Prod.snd).getD "")

/-- Concrete stand-ins for the external collaborators, used in
concrete evaluations (identity-like functions, a constant bibstem,
no thesis indicators, no conference-series matches). -/
def wHypExt : HypExt :=
  ⟨id, fun v _ => v, id, fun _ => "ApJ", id, fun _ => false, [], fun _ => []⟩

/-- Concrete configuration for witnesses: minimum-score multiplier 1,
evidence score range [-2, 2]. -/
def wCfg : Config ℤ := ⟨1, -2, 2⟩

/-- A one-entry, non-vetoed ledger of aggregate score 2. -/
def wEvPlain : Evidences ℤ := ⟨[(2, "author")]⟩

/-- A four-entry ledger of aggregate score 4 containing one veto
(weight -2, the low end of the configured range). -/
def wEvVetoed : Evidences ℤ := ⟨[(2, "author"), (2, "year"), (2, "volume"), (-2, "page")]⟩

def wSolA : SolrResult := ⟨"1990ApJ...100....1A", "alpha"⟩

def wSolB : SolrResult := ⟨"1991ApJ...101....2B", "beta"⟩

def wHyp : SolveHyp := ⟨none⟩

/-- C1: at the end of resolution, with stashed candidates (1, "A") and
(2, "B"), the groups are sorted ascending, the best group (2, "B")
strictly beats the runner-up (1, "A"), yet `solve_reference` returns
`scored[0]` — the *lowest*-scoring group's bibcode "A" — under the
rationale "best tied solution".  This contradicts both the claim and
the code's own comment ("see if any one is better than all others and
accept that"). -/
theorem claim_C1_reconciliation_returns_lowest :
    reconcileStash ([((1 : ℤ), "A"), (2, "B")]) =
      some ⟨"A", (1, "A"), "best tied solution"⟩ ∧
    pairLt ((1 : ℤ), "A") ((2 : ℤ), "B") := by decide

/-- C2 counterexample: a single vetoed candidate whose aggregate score
(4) clears the count-weighted threshold (1 × 4) is accepted by
`choose_solution` even though its ledger contains a veto, refuting
"the Solution Chooser never accepts a candidate whose ledger contains
a veto". -/
theorem claim_C2_counterexample :
    chooseSolution wCfg [(wEvVetoed, wSolB)] wHyp = Outcome.accepted wEvVetoed wSolB ∧
    Evidences.hasVeto wCfg wEvVetoed = true := by decide

/-- C2 amended: every run of the chooser is an accept, an Undecidable
or a NoSolution (the embedding is total by construction); the
doubtful-inspection path never accepts, and any candidate accepted by
the ambiguity-resolution path is non-vetoed — but the chooser's own
threshold paths may accept a vetoed candidate that clears the
count-weighted threshold. -/
theorem claim_C2_amended_inspection_paths_never_accept_vetoed
    {α : Type} [LinearOrderedCommRing α] (cfg : Config α)
    (scored : List (Evidences α × SolrResult)) (hyp : SolveHyp) :
    (∀ ev sol, inspectDoubtfulSolutions cfg scored hyp ≠ Outcome.accepted ev sol) ∧
    (∀ ev sol, inspectAmbiguousSolutions cfg scored hyp = Outcome.accepted ev sol →
      ev.hasVeto cfg = false) :=
  ⟨fun ev sol => doubtful_never_accepts cfg scored hyp ev sol,
   fun ev sol h => ambiguous_accepts_non_vetoed cfg scored hyp ev sol h⟩

/-- Witness for the amended C2 theorem at a concrete input: the
ambiguity path accepts the only non-vetoed candidate, which indeed
carries no veto. -/
theorem claim_C2_amended_witness :
    Evidences.hasVeto wCfg wEvPlain = false :=
  (claim_C2_amended_inspection_paths_never_accept_vetoed wCfg
    [(wEvPlain, wSolA), (wEvVetoed, wSolB)] wHyp).2 wEvPlain wSolA (by decide)



/-- C3: the Solution Chooser first filters to candidates whose
aggregate score is at least the configured minimum times the entry
count; with zero survivors it runs the doubtful inspection on the
unfiltered list (NoSolution when that list was empty); a single
survivor is accepted; among several survivors a unique best-scoring
one is accepted and otherwise Undecidable is raised. -/
theorem claim_C3_choose_solution_threshold_logic
    {α : Type} [LinearOrderedCommRing α] (cfg : Config α)
    (cands : List (Evidences α × SolrResult)) (hyp : SolveHyp) :
    (cands = [] → chooseSolution cfg cands hyp = Outcome.nosolution) ∧
    (cands ≠ [] → cands.filter (fun p => decide (clearsThreshold cfg p.1)) = [] →
      chooseSolution cfg cands hyp = inspectDoubtfulSolutions cfg cands hyp) ∧
    (∀ p, cands.filter (fun p => decide (clearsThreshold cfg p.1)) = [p] →
      chooseSolution cfg cands hyp = Outcome.accepted p.1 p.2) ∧
    (∀ a b rest, cands.filter (fun p => decide (clearsThreshold cfg p.1)) = a :: b :: rest →
      (∀ q, (a :: b :: rest).filter
          (fun p => decide (p.1.score = bestScore (a :: b :: rest))) = [q] →
        chooseSolution cfg cands hyp = Outcome.accepted q.1 q.2) ∧
      (1 < ((a :: b :: rest).filter
          (fun p => decide (p.1.score = bestScore (a :: b :: rest)))).length →
        chooseSolution cfg cands hyp = Outcome.undecidable [])) := by
  refine ⟨?_, ?_, ?_, ?_⟩
  · intro h
    subst h
    rfl
  · intro hne hfil
    simp only [chooseSolution, hfil]
  · intro p hfil
    simp only [chooseSolution, hfil]
  · intro a b rest hfil
    constructor
    · intro q hq
      simp only [chooseSolution, hfil, hq]
    · intro hlen
      rcases hbs : (a :: b :: rest).filter
          (fun p => decide (p.1.score = bestScore (a :: b :: rest)))
        with _ | ⟨q1, _ | ⟨q2, qs⟩⟩
      · rw [hbs] at hlen
        simp at hlen
      · rw [hbs] at hlen
        simp at hlen
      · simp only [chooseSolution, hfil, hbs]

/-- Witness for C3 at a concrete input: a single surviving candidate
is accepted. -/
theorem claim_C3_witness :
    chooseSolution wCfg [(wEvPlain, wSolA)] wHyp = Outcome.accepted wEvPlain wSolA :=
  (claim_C3_choose_solution_threshold_logic wCfg [(wEvPlain, wSolA)] wHyp).2.2.1
    (wEvPlain, wSolA) (by decide)



/-- C4 counterexample: two candidates clear the count-weighted
threshold with distinct aggregate scores (not equal-max), so by the
claim the ambiguity-resolution path should run; but `choose_solution`
accepts the unique best-scoring (vetoed) candidate directly, while the
ambiguity path — never invoked by the code — would have accepted the
other one.  `inspect_ambiguous_solutions` is dead code. -/
theorem claim_C4_counterexample :
    ([(wEvPlain, wSolA), (wEvVetoed, wSolB)].filter
      (fun p => decide (clearsThreshold wCfg p.1))).length = 2 ∧
    wEvPlain.score ≠ wEvVetoed.score ∧
    chooseSolution wCfg [(wEvPlain, wSolA), (wEvVetoed, wSolB)] wHyp =
      Outcome.accepted wEvVetoed wSolB ∧
    inspectAmbiguousSolutions wCfg [(wEvPlain, wSolA), (wEvVetoed, wSolB)] wHyp =
      Outcome.accepted wEvPlain wSolA ∧
    wSolB ≠ wSolA := by decide

/-- C4 amended: `inspect_ambiguous_solutions` itself (never invoked by
`choose_solution`) behaves as described: vetoed candidates are
discarded; with none left the doubtful inspection runs; with one left
it is accepted; a leader with strictly more evidence entries than the
runner-up is accepted; else a leader passing the title test (lowered,
trimmed; runner-up's title a prefix of the leader's with both
non-empty, or the leader's a prefix of the runner-up's) is accepted;
otherwise Undecidable stashes every non-vetoed candidate whose score
exceeds the configured lower bound of the evidence range. -/
theorem claim_C4_amended_ambiguous_path_behavior
    {α : Type} [LinearOrderedCommRing α] (cfg : Config α)
    (scored : List (Evidences α × SolrResult)) (hyp : SolveHyp) :
    ((scored.filter (fun p => !(p.1.hasVeto cfg))).reverse = [] →
      inspectAmbiguousSolutions cfg scored hyp = inspectDoubtfulSolutions cfg scored hyp) ∧
    (∀ p, (scored.filter (fun p => !(p.1.hasVeto cfg))).reverse = [p] →
      inspectAmbiguousSolutions cfg scored hyp = Outcome.accepted p.1 p.2) ∧
    (∀ a b rest, (scored.filter (fun p => !(p.1.hasVeto cfg))).reverse = a :: b :: rest →
      (b.1.count < a.1.count →
        inspectAmbiguousSolutions cfg scored hyp = Outcome.accepted a.1 a.2) ∧
      (¬ b.1.count < a.1.count →
        ((pyStrip (pyLower a.2.title) ≠ "" ∧ pyStrip (pyLower b.2.title) ≠ "" ∧
            pyStartswith (pyStrip (pyLower a.2.title)) (pyStrip (pyLower b.2.title)) = true) ∨
          pyStartswith (pyStrip (pyLower b.2.title)) (pyStrip (pyLower a.2.title)) = true) →
        inspectAmbiguousSolutions cfg scored hyp = Outcome.accepted a.1 a.2) ∧
      (¬ b.1.count < a.1.count →
        ¬ (((pyStrip (pyLower a.2.title) ≠ "" ∧ pyStrip (pyLower b.2.title) ≠ "" ∧
            pyStartswith (pyStrip (pyLower a.2.title)) (pyStrip (pyLower b.2.title)) = true) ∨
          pyStartswith (pyStrip (pyLower b.2.title)) (pyStrip (pyLower a.2.title)) = true)) →
        inspectAmbiguousSolutions cfg scored hyp =
          Outcome.undecidable (((scored.filter (fun p => !(p.1.hasVeto cfg))).filter
              (fun p => decide (cfg.rangeLo < p.1.score))).map
            (fun p => (p.1.score, p.2.bibcode))))) := by
  refine ⟨?_, ?_, ?_⟩
  · intro hrev
    simp only [inspectAmbiguousSolutions, hrev]
  · intro p hrev
    simp only [inspectAmbiguousSolutions, hrev]
  · intro a b rest hrev
    refine ⟨?_, ?_, ?_⟩
    · intro hcnt
      simp only [inspectAmbiguousSolutions, hrev]
      rw [if_pos hcnt]
    · intro hcnt htitle
      simp only [inspectAmbiguousSolutions, hrev]
      rw [if_neg hcnt, if_pos htitle]
    · intro hcnt htitle
      simp only [inspectAmbiguousSolutions, hrev]
      rw [if_neg hcnt, if_neg htitle]

/-- Witness for the amended C4 theorem: with one non-vetoed candidate
the ambiguity path accepts it. -/
theorem claim_C4_amended_witness :
    inspectAmbiguousSolutions wCfg [(wEvPlain, wSolA), (wEvVetoed, wSolB)] wHyp =
      Outcome.accepted wEvPlain wSolA :=
  (claim_C4_amended_ambiguous_path_behavior wCfg [(wEvPlain, wSolA), (wEvVetoed, wSolB)]
    wHyp).2.1 (wEvPlain, wSolA) (by decide)



/-- Length of the dot filler: `(dots n).length = n`. -/
theorem dots_length (n : Nat) : (dots n).length = n := by
  simp [dots, String.length]

/-- A string is empty iff its character list is. -/
theorem toList_eq_nil_iff (s : String) : s.toList = [] ↔ s = "" := by
  constructor
  · intro h
    cases s with
    | mk data =>
      simp only [String.toList] at h
      subst h
      rfl
  · intro h
    rw [h]
    rfl

/-- The raw record whose 5-character volume breaks the 19-character
bibcode invariant. -/
def rC5 : Map :=
  recOf [("authors", "Smith, J."), ("year", "2000"), ("journal", "x"), ("volume", "12345")]

/-- C5 counterexample: a digested record with author, year and pub all
present (and a 5-character volume) yields a 20-character identifier —
Python's negative-count padding is empty and the volume is not
truncated, refuting "exactly 19 characters regardless of which
optional fields are present". -/
theorem claim_C5_counterexample :
    (makeDigestedRecord wHypExt rC5).map (fun dr =>
      (hasKeys dr.d ["author", "year", "pub"],
       (constructBibcode wHypExt dr.d dr.normalizedAuthors).length)) =
    .ok (true, 20) := by decide

/-- C5 amended: the constructed identifier has the claimed 19-character
positional layout provided the year is exactly 4 characters, the
looked-up journal code at most 5, the volume at most 4, and the page
qualifier (when present) a single character: each padded field then
has its fixed width and the whole identifier is 19 characters. -/
theorem claim_C5_amended_bibcode_layout (ext : HypExt) (d : Map) (na : String)
    (hyear : (d "year").length = 4)
    (hjour : (ext.getBestBibstemFor (d "pub")).length ≤ 5)
    (hvol : (d "volume").length ≤ 4)
    (hqual : d "qualifier" = "" ∨ (d "qualifier").length = 1) :
    (ext.getBestBibstemFor (d "pub") ++
      dots (5 - (ext.getBestBibstemFor (d "pub")).length)).length = 5 ∧
    (dots (4 - (d "volume").length) ++ d "volume").length = 4 ∧
    (if d "qualifier" = "" then "." else d "qualifier").length = 1 ∧
    (dots (4 - (pyTake (d "page") 4).length) ++ pyTake (d "page") 4).length = 4 ∧
    (if na = "" then "." else pyTake na 1).length = 1 ∧
    (constructBibcode ext d na).length = 19 := by
  have hj : (ext.getBestBibstemFor (d "pub") ++
      dots (5 - (ext.getBestBibstemFor (d "pub")).length)).length = 5 := by
    rw [String.length_append, dots_length]
    omega
  have hv : (dots (4 - (d "volume").length) ++ d "volume").length = 4 := by
    rw [String.length_append, dots_length]
    omega
  have hq : (if d "qualifier" = "" then "." else d "qualifier").length = 1 := by
    rcases hqual with h | h
    · rw [if_pos h]
      rfl
    · have hne : d "qualifier" ≠ "" := by
        intro hc
        rw [hc] at h
        simp at h
      rw [if_neg hne]
      exact h
  have hptake : (pyTake (d "page") 4).length ≤ 4 := by
    simp only [pyTake, String.length, String.toList]
    rw [List.length_take]
    omega
  have hp : (dots (4 - (pyTake (d "page") 4).length) ++ pyTake (d "page") 4).length = 4 := by
    rw [String.length_append, dots_length]
    omega
  have hi : (if na = "" then "." else pyTake na 1).length = 1 := by
    by_cases hna : na = ""
    · rw [if_pos hna]
      rfl
    · rw [if_neg hna]
      have hne : na.toList ≠ [] := fun hc => hna ((toList_eq_nil_iff na).mp hc)
      have hlen : 0 < na.toList.length := List.length_pos.mpr hne
      simp only [String.toList] at hlen
      simp only [pyTake, String.length, String.toList]
      rw [List.length_take]
      omega
  refine ⟨hj, hv, hq, hp, hi, ?_⟩
  show (d "year" ++
    (ext.getBestBibstemFor (d "pub") ++
      dots (5 - (ext.getBestBibstemFor (d "pub")).length)) ++
    (dots (4 - (d "volume").length) ++ d "volume") ++
    (if d "qualifier" = "" then "." else d "qualifier") ++
    (dots (4 - (pyTake (d "page") 4).length) ++ pyTake (d "page") 4) ++
    (if na = "" then "." else pyTake na 1)).length = 19
  simp only [String.length_append, dots_length]
  rw [hyear, hq, hi]
  omega



/-- Without an author, the author block of digestion is a no-op. -/
theorem digestAuthorStep_skip (ext : HypExt) (d : Map) (h : d "author" = "") :
    digestAuthorStep ext d = (d, "", "") := by
  unfold digestAuthorStep
  rw [if_pos h]

/-- The doi-only reference of the C6 counterexample. -/
def rC6 : Map := recOf [("doi", "10.1086/123456")]

/-- C6 counterexample: a reference lacking title, author and year but
carrying a doi yields the `fielded-DOI` hypothesis, not an empty
sequence — refuting "regardless of which other fields (doi, arxiv,
journal, volume, page, refstr) are present". -/
theorem claim_C6_counterexample :
    rC6 "title" = "" ∧ rC6 "authors" = "" ∧ rC6 "year" = "" ∧
    (makeDigestedRecord wHypExt rC6).map
      (fun dr => (iterHypotheses wHypExt false dr).map Hyp.name) =
    .ok ["fielded-DOI"] := by decide

/-- C6 amended: a reference lacking title, author, year, doi, arxiv
and pub (journal and book) yields zero hypotheses, whatever its
volume, issue, page and refstr — every gate of the cascade requires at
least one of the missing fields. -/
theorem claim_C6_amended_no_hypotheses (ext : HypExt) (hasEtal : Bool) (r : Map)
    (ht : r "title" = "") (ha : r "authors" = "") (hy : r "year" = "")
    (hd : r "doi" = "") (hx : r "arxiv" = "") (hj : r "journal" = "")
    (hb : r "book" = "") :
    (makeDigestedRecord ext r).map (fun dr => iterHypotheses ext hasEtal dr) = .ok [] := by
  have hba : digestedBase r "author" = "" := by rw [digestedBase_author, ha]
  have hby : digestedBase r "year" = "" := by rw [digestedBase_year, hy]
  have hbt : digestedBase r "title" = "" := by rw [digestedBase_title, ht]
  have hbd : digestedBase r "doi" = "" := by rw [digestedBase_doi, hd]
  have hbx : digestedBase r "arxiv" = "" := by rw [digestedBase_arxiv, hx]
  have hbp : digestedBase r "pub" = "" := by
    rw [digestedBase_pub, hb, hj]
    simp
  have hstep : digestAuthorStep ext (digestedBase r) = (digestedBase r, "", "") :=
    digestAuthorStep_skip ext _ hba
  have hyearstep : digestYearStep (digestedBase r) = .ok (digestedBase r) := by
    apply digestYearStep_skip
    rw [hby]
    decide
  have hvolskip : digestVolumeStep (digestPageStep (digestedBase r)) =
      digestPageStep (digestedBase r) := by
    apply digestVolumeStep_skip
    left
    rw [digestPageStep_ne _ _ (by decide), hbp]
  have hmk : makeDigestedRecord ext r = .ok ⟨digestPageStep (digestedBase r), "", ""⟩ := by
    unfold makeDigestedRecord
    rw [hstep]
    simp only [hyearstep, hvolskip]
  rw [hmk]
  show Except.ok (iterHypotheses ext hasEtal ⟨digestPageStep (digestedBase r), "", ""⟩) =
    Except.ok ([] : List Hyp)
  refine congrArg Except.ok ?_
  set dfin := digestPageStep (digestedBase r) with hdfin
  have fa : dfin "author" = "" := by rw [hdfin, digestPageStep_ne _ _ (by decide), hba]
  have fy : dfin "year" = "" := by rw [hdfin, digestPageStep_ne _ _ (by decide), hby]
  have ft : dfin "title" = "" := by rw [hdfin, digestPageStep_ne _ _ (by decide), hbt]
  have fd : dfin "doi" = "" := by rw [hdfin, digestPageStep_ne _ _ (by decide), hbd]
  have fx : dfin "arxiv" = "" := by rw [hdfin, digestPageStep_ne _ _ (by decide), hbx]
  have fp : dfin "pub" = "" := by rw [hdfin, digestPageStep_ne _ _ (by decide), hbp]
  simp only [iterHypotheses, hasKeys, lacksKeys, List.all_cons, List.all_nil,
    fa, fy, ft, fd, fx, fp]
  simp [fa, fy, ft, fd, fx, fp]



/-- Concrete identity-like stand-ins for the query translator's
external collaborators. -/
def wSolveExt : SolveExt := ⟨fun v _ => v, id, id, id, id⟩

set_option maxRecDepth 8000 in
/-- C7 counterexample: for the two-character page "12" the produced
disjunction contains a wildcard variant only for position 1 (the code
iterates `range(1, len(value))`), while the claim demands one for
every position including position 0 — the two renderings differ. -/
theorem claim_C7_counterexample :
    pyStrip "12" ≠ "" ∧
    makeSolrCondition wSolveExt "page" "12" = some (pageCondition "12") ∧
    pageCondition "12" ≠ pageConditionClaimed "12" := by decide

/-- Dropping the head of `range n` enumerates the positions from 1. -/
theorem range_drop_one (n : Nat) : (List.range n).drop 1 = List.range' 1 (n - 1) := by
  cases n with
  | zero => rfl
  | succ k =>
    rw [List.range_eq_range', List.range'_succ]
    simp

/-- C7 amended: for a non-blank page value the translator emits the
direct fragment for a single character, and for two or more characters
the disjunction of every leading-character substitution plus one
single-position wildcard variant for every position except position 0. -/
theorem claim_C7_amended_page_condition (ext : SolveExt) (value : String)
    (hnb : pyStrip value ≠ "") (hne : value ≠ "") :
    (value.length = 1 →
      makeSolrCondition ext "page" value = some ("page:(" ++ value ++ ")")) ∧
    (2 ≤ value.length →
      makeSolrCondition ext "page" value = some (pageConditionAmended value)) := by
  have hcond : makeSolrCondition ext "page" value = some (pageCondition value) := by
    unfold makeSolrCondition
    rw [if_neg (by simp [hne, hnb]), if_neg (by decide), if_neg (by decide),
      if_neg (by decide), if_neg (by decide), if_neg (by decide), if_pos rfl]
  refine ⟨?_, ?_⟩
  · intro h1
    rw [hcond]
    unfold pageCondition
    rw [if_pos h1]
  · intro h2
    rw [hcond]
    unfold pageCondition pageConditionAmended
    rw [if_neg (by omega), if_neg (by omega)]
    simp only [range_drop_one]



set_option maxRecDepth 8000 in
/-- Witness for the amended C7 theorem at the concrete page "123". -/
theorem claim_C7_amended_witness :
    makeSolrCondition wSolveExt "page" "123" = some (pageConditionAmended "123") :=
  (claim_C7_amended_page_condition wSolveExt "123" (by decide) (by decide)).2 (by decide)

/-- Following the words of claim C8: the first 4-character run
anywhere in the string that matches a leading 1 or 2 followed by
0, 8 or 9 and then two digits. -/
def firstYearRun : List Char → Option (List Char)
  | [] => none
  | c :: t =>
    match leadingYearRun (c :: t) with
    | some y => some y
    | none => firstYearRun t

/-- C8 counterexample: the year field "a2001b" is longer than 4
characters and contains the 4-digit run "2001", yet digestion fails
(the code's pattern is anchored at position 0), refuting "truncates it
to the first 4-digit run". -/
theorem claim_C8_counterexample :
    4 < ("a2001b" : String).length ∧
    firstYearRun ("a2001b" : String).toList = some ("2001" : String).toList ∧
    (makeDigestedRecord wHypExt (recOf [("year", "a2001b")])).map (fun dr => dr.d "year") =
      .error "IndexError: year does not start with [12][089]dd" := by decide

/-- The anchored year match returns the first 4 characters of the
string. -/
theorem leadingYearMatch_take (s y : String) (h : leadingYearMatch s = some y) :
    y = pyTake s 4 := by
  unfold leadingYearMatch at h
  cases hr : leadingYearRun s.toList with
  | none => rw [hr] at h; cases h
  | some yl =>
    rw [hr] at h
    injection h with h1
    rw [← h1]
    unfold pyTake
    rw [(leadingYearRun_shape _ _ hr).1]

/-- A string longer than 4 characters is non-empty. -/
theorem ne_empty_of_four_lt (s : String) (h : 4 < s.length) : s ≠ "" := by
  intro hc
  rw [hc] at h
  exact absurd h (by decide)

/-- C8 amended: a year longer than 4 characters is truncated to its
leading 4 characters when they match `[12][089]\d\d` at position 0
(digestion succeeds and the digested year is that 4-character prefix);
when the string does not begin with such a run, digestion of the whole
record fails loudly with an error, even if a matching run occurs
further inside the string. -/
theorem claim_C8_amended_year_truncation (ext : HypExt) (r : Map)
    (h4 : 4 < (r "year").length) :
    (∀ y, leadingYearMatch (r "year") = some y →
      ∃ dr, makeDigestedRecord ext r = .ok dr ∧ dr.d "year" = y ∧
        y = pyTake (r "year") 4) ∧
    (leadingYearMatch (r "year") = none →
      makeDigestedRecord ext r =
        .error "IndexError: year does not start with [12][089]dd") := by
  have hy1 : (digestAuthorStep ext (digestedBase r)).1 "year" = r "year" := by
    rw [digestAuthorStep_ne _ _ _ (by decide), digestedBase_year]
  have hcond : (digestAuthorStep ext (digestedBase r)).1 "year" ≠ "" ∧
      ((digestAuthorStep ext (digestedBase r)).1 "year").length > 4 := by
    rw [hy1]
    exact ⟨ne_empty_of_four_lt _ h4, h4⟩
  constructor
  · intro y hmatch
    have hys : digestYearStep (digestAuthorStep ext (digestedBase r)).1 =
        .ok (Map.set (digestAuthorStep ext (digestedBase r)).1 "year" y) := by
      unfold digestYearStep
      rw [if_pos hcond, hy1, hmatch]
    refine ⟨⟨digestVolumeStep (digestPageStep
        (Map.set (digestAuthorStep ext (digestedBase r)).1 "year" y)),
      (digestAuthorStep ext (digestedBase r)).2.1,
      (digestAuthorStep ext (digestedBase r)).2.2⟩, ?_, ?_, ?_⟩
    · simp only [makeDigestedRecord]
      rw [hys]
    · show (digestVolumeStep (digestPageStep
        (Map.set (digestAuthorStep ext (digestedBase r)).1 "year" y))) "year" = y
      rw [digestVolumeStep_ne _ _ (by decide) (by decide),
        digestPageStep_ne _ _ (by decide)]
      exact Function.update_same _ _ _
    · exact leadingYearMatch_take _ _ hmatch
  · intro hnone
    have hys : digestYearStep (digestAuthorStep ext (digestedBase r)).1 =
        .error "IndexError: year does not start with [12][089]dd" := by
      unfold digestYearStep
      rw [if_pos hcond, hy1, hnone]
    simp only [makeDigestedRecord]
    rw [hys]

/-- Witness for the amended C8 theorem: "2001extra" is truncated to
its leading run "2001". -/
theorem claim_C8_amended_witness :
    ∃ dr, makeDigestedRecord wHypExt (recOf [("year", "2001extra")]) = .ok dr ∧
      dr.d "year" = "2001" ∧ ("2001" : String) = pyTake "2001extra" 4 :=
  (claim_C8_amended_year_truncation wHypExt (recOf [("year", "2001extra")])
    (by decide)).1 "2001" (by decide)

/-- C9: digestion is idempotent on year, page, volume and pub — when
the digested values are carried back on their raw keys (pub as
journal) and digested again (under possibly different external
collaborators), these four fields are unchanged. -/
theorem claim_C9_digestion_idempotent (ext ext2 : HypExt) (r : Map) (dr : DigestResult)
    (h : makeDigestedRecord ext r = .ok dr) :
    ∃ dr2, makeDigestedRecord ext2 (redigestInput dr.d) = .ok dr2 ∧
      dr2.d "year" = dr.d "year" ∧ dr2.d "page" = dr.d "page" ∧
      dr2.d "volume" = dr.d "volume" ∧ dr2.d "pub" = dr.d "pub" := by
  rcases hys : digestYearStep (digestAuthorStep ext (digestedBase r)).1 with e | d2 <;>
    simp only [makeDigestedRecord, hys] at h
  · exact absurd h (by simp)
  injection h with h1
  have hdy : dr.d "year" = d2 "year" := by
    rw [← h1]
    show (digestVolumeStep (digestPageStep d2)) "year" = d2 "year"
    rw [digestVolumeStep_ne _ _ (by decide) (by decide),
      digestPageStep_ne _ _ (by decide)]
  have hylen : (dr.d "year").length ≤ 4 := by
    rw [hdy]
    exact digestYearStep_ok_year_len _ _ hys
  have hpd : hasDash (dr.d "page") = false := by
    rw [← h1]
    show hasDash ((digestVolumeStep (digestPageStep d2)) "page") = false
    rw [digestVolumeStep_ne _ _ (by decide) (by decide)]
    exact digestPageStep_page_noDash d2
  have hinv : dr.d "pub" = "" ∨ letterVolume (dr.d "volume") = false := by
    rw [← h1]
    exact digestVolumeStep_inv (digestPageStep d2)
  -- second digestion
  have b2y : digestedBase (redigestInput dr.d) "year" = dr.d "year" := by
    rw [digestedBase_year]; rfl
  have b2p : digestedBase (redigestInput dr.d) "page" = dr.d "page" := by
    rw [digestedBase_page]; rfl
  have b2v : digestedBase (redigestInput dr.d) "volume" = dr.d "volume" := by
    rw [digestedBase_volume]; rfl
  have b2pub : digestedBase (redigestInput dr.d) "pub" = dr.d "pub" := by
    rw [digestedBase_pub]
    have hbook : redigestInput dr.d "book" = "" := rfl
    rw [hbook]
    simp only [ne_eq, not_true_eq_false, if_false]
    rfl
  have a2y : (digestAuthorStep ext2 (digestedBase (redigestInput dr.d))).1 "year"
      = dr.d "year" := by rw [digestAuthorStep_ne _ _ _ (by decide), b2y]
  have a2p : (digestAuthorStep ext2 (digestedBase (redigestInput dr.d))).1 "page"
      = dr.d "page" := by rw [digestAuthorStep_ne _ _ _ (by decide), b2p]
  have a2v : (digestAuthorStep ext2 (digestedBase (redigestInput dr.d))).1 "volume"
      = dr.d "volume" := by rw [digestAuthorStep_ne _ _ _ (by decide), b2v]
  have a2pub : (digestAuthorStep ext2 (digestedBase (redigestInput dr.d))).1 "pub"
      = dr.d "pub" := by rw [digestAuthorStep_ne _ _ _ (by decide), b2pub]
  have hskip2 : digestYearStep (digestAuthorStep ext2 (digestedBase (redigestInput dr.d))).1
      = .ok (digestAuthorStep ext2 (digestedBase (redigestInput dr.d))).1 := by
    apply digestYearStep_skip
    rw [a2y]
    exact hylen
  have hpskip : digestPageStep (digestAuthorStep ext2 (digestedBase (redigestInput dr.d))).1
      = (digestAuthorStep ext2 (digestedBase (redigestInput dr.d))).1 := by
    apply digestPageStep_skip
    rw [a2p]
    exact hpd
  have hvskip : digestVolumeStep (digestAuthorStep ext2 (digestedBase (redigestInput dr.d))).1
      = (digestAuthorStep ext2 (digestedBase (redigestInput dr.d))).1 := by
    apply digestVolumeStep_skip
    rw [a2pub, a2v]
    exact hinv
  refine ⟨⟨(digestAuthorStep ext2 (digestedBase (redigestInput dr.d))).1,
    (digestAuthorStep ext2 (digestedBase (redigestInput dr.d))).2.1,
    (digestAuthorStep ext2 (digestedBase (redigestInput dr.d))).2.2⟩, ?_, a2y, a2p, a2v, a2pub⟩
  simp only [makeDigestedRecord, hskip2, hpskip, hvskip]



/-- The lettered-volume record used in the C9 witness. -/
def wC9rec : Map :=
  recOf [("journal", "Phys. Rev."), ("volume", "D81"), ("year", "2010"), ("page", "123-145")]

/-- The digest result of `wC9rec`, spelled as the digestion pipeline
produces it. -/
def wC9dig : DigestResult :=
  ⟨digestVolumeStep (digestPageStep (digestAuthorStep wHypExt (digestedBase wC9rec)).1),
   (digestAuthorStep wHypExt (digestedBase wC9rec)).2.1,
   (digestAuthorStep wHypExt (digestedBase wC9rec)).2.2⟩

/-- Witness for C9 at a concrete record that exercises the year, page
and lettered-volume repairs. -/
theorem claim_C9_witness :
    ∃ dr2, makeDigestedRecord wHypExt (redigestInput wC9dig.d) = .ok dr2 ∧
      dr2.d "year" = wC9dig.d "year" ∧ dr2.d "page" = wC9dig.d "page" ∧
      dr2.d "volume" = wC9dig.d "volume" ∧ dr2.d "pub" = wC9dig.d "pub" :=
  claim_C9_digestion_idempotent wHypExt wHypExt wC9rec wC9dig (by rfl)

/-- The record of the C10 counterexample: journal and book both
present, plus a lettered volume. -/
def rC10 : Map := recOf [("journal", "J"), ("book", "B"), ("volume", "D81")]

/-- C10 counterexample: with journal "J", book "B" and volume "D81",
the digested pub is "B D" (the lettered-volume repair appends the
volume letter), not the book value "B" — refuting "the digested
record's pub field equals the book value" as stated for every record. -/
theorem claim_C10_counterexample :
    rC10 "journal" ≠ "" ∧ rC10 "book" ≠ "" ∧
    (makeDigestedRecord wHypExt rC10).map (fun dr => dr.d "pub") = .ok "B D" ∧
    ("B D" : String) ≠ rC10 "book" := by decide

/-- C10 amended: whenever journal and book are both non-empty and the
volume does not trigger the lettered-volume repair, the digested pub
equals the book value — the mapping order makes book overwrite
journal, whose value is discarded. -/
theorem claim_C10_amended_book_overwrites_journal (ext : HypExt) (r : Map)
    (_hj : r "journal" ≠ "") (hb : r "book" ≠ "")
    (hlv : letterVolume (r "volume") = false) (dr : DigestResult)
    (h : makeDigestedRecord ext r = .ok dr) : dr.d "pub" = r "book" := by
  rcases hys : digestYearStep (digestAuthorStep ext (digestedBase r)).1 with e | d2 <;>
    simp only [makeDigestedRecord, hys] at h
  · exact absurd h (by simp)
  injection h with h1
  have hbv : (digestPageStep d2) "volume" = r "volume" := by
    rw [digestPageStep_ne _ _ (by decide), digestYearStep_ok_ne _ _ hys _ (by decide),
      digestAuthorStep_ne _ _ _ (by decide), digestedBase_volume]
  have hskip : digestVolumeStep (digestPageStep d2) = digestPageStep d2 :=
    digestVolumeStep_skip _ (Or.inr (by rw [hbv]; exact hlv))
  rw [← h1]
  show (digestVolumeStep (digestPageStep d2)) "pub" = r "book"
  rw [hskip, digestPageStep_ne _ _ (by decide), digestYearStep_ok_ne _ _ hys _ (by decide),
    digestAuthorStep_ne _ _ _ (by decide), digestedBase_pub, if_pos hb]

/-- The plain-volume record used in the C10 witness. -/
def wC10rec : Map := recOf [("journal", "J"), ("book", "B"), ("volume", "81")]

/-- The digest result of `wC10rec`, spelled as the digestion pipeline
produces it. -/
def wC10dig : DigestResult :=
  ⟨digestVolumeStep (digestPageStep (digestAuthorStep wHypExt (digestedBase wC10rec)).1),
   (digestAuthorStep wHypExt (digestedBase wC10rec)).2.1,
   (digestAuthorStep wHypExt (digestedBase wC10rec)).2.2⟩

/-- Witness for the amended C10 theorem at a concrete record. -/
theorem claim_C10_amended_witness : wC10dig.d "pub" = wC10rec "book" :=
  claim_C10_amended_book_overwrites_journal wHypExt wC10rec (by decide) (by decide)
    (by decide) wC10dig (by rfl)



/-- The digested-record map used by the C5 witness. -/
def wC5d : Map := recOf [("year", "2001"), ("pub", "ApJ"), ("volume", "550"), ("page", "L1")]

/-- Witness for the amended C5 theorem: with in-range field widths the
identifier is 19 characters. -/
theorem claim_C5_amended_witness :
    (constructBibcode wHypExt wC5d "Smith, J.").length = 19 :=
  (claim_C5_amended_bibcode_layout wHypExt wC5d "Smith, J." (by decide) (by decide)
    (by decide) (Or.inl (by decide))).2.2.2.2.2

/-- The title-, author-, year-, doi-, arxiv- and pub-less record used
by the C6 witness. -/
def wC6rec : Map := recOf [("page", "123-145"), ("volume", "7"), ("refstr", "unparsed text")]

/-- Witness for the amended C6 theorem: the cascade yields nothing. -/
theorem claim_C6_amended_witness :
    (makeDigestedRecord wHypExt wC6rec).map (fun dr => iterHypotheses wHypExt false dr) =
      .ok [] :=
  claim_C6_amended_no_hypotheses wHypExt false wC6rec rfl rfl rfl rfl rfl rfl rfl

end RefSrv
